import Mathlib

/-!
Formal model of the `FirestoreUtil` class and its helper
`removeUndefinedValues` from `src/firebase/firestore/index.ts` of the
`firebase-funs` repository.

The TypeScript code is shallowly embedded: JavaScript runtime values are the
inductive type `JValue`, JavaScript objects are association lists of
`String × JValue` bindings (`Fields`), the Firestore database is an explicit
association from document paths to field maps (`Firestore`), and each method
of `FirestoreUtil` becomes a pure Lean function that returns the new database
state, the calls handed to the underlying driver, and the method's result
(fallible methods return `Except String`).  JavaScript truthiness of the
optional arguments (`if (docId)`, `if (options.limit)`, ...) is modelled
explicitly by `strTruthy`, `numTruthy` and `jsTruthy`.
-/

/-- JavaScript runtime values appearing in payloads.  `undef` is the
JavaScript `undefined` marker (the "absent" value), `obj` is a plain object
(`Object.prototype.toString` yields `[object Object]`), `arr` an array and
`date` a `Date`-like leaf; `prim`, `num` and `bool` are primitive leaves. -/
inductive JValue where
  | undef
  | null
  | prim (s : String)
  | num (n : Int)
  | bool (b : Bool)
  | arr (elems : List JValue)
  | date (t : Int)
  | obj (fields : List (String × JValue))

/-- A JavaScript object as an ordered association list of bindings. -/
abbrev Fields := List (String × JValue)

/-- Model of `removeUndefinedValues` (src/firebase/firestore/index.ts, lines
29-51): iterate over the object's own keys in order; drop a key whose value
is `undefined`; recurse into a value that is a plain object; copy every other
value (arrays, dates, primitives, `null`) unchanged. -/
def removeUndefinedValues : Fields → Fields
  | [] => []
  | (_, JValue.undef) :: rest => removeUndefinedValues rest
  | (key, JValue.obj fs) :: rest =>
      (key, JValue.obj (removeUndefinedValues fs)) :: removeUndefinedValues rest
  | (key, value) :: rest => (key, value) :: removeUndefinedValues rest

/-- Does a field map bind some key to `undefined`, at any depth reachable
through plain nested objects (arrays and other non-plain values are not
entered, mirroring the sanitizer's own notion of depth)? -/
def fieldsHasUndef : Fields → Bool
  | [] => false
  | (_, JValue.undef) :: _ => true
  | (_, JValue.obj fs) :: rest => fieldsHasUndef fs || fieldsHasUndef rest
  | _ :: rest => fieldsHasUndef rest

/-- Model of JavaScript `s.split("/")` on the character list of `s`. -/
def splitSlashChars : List Char → List String
  | [] => [""]
  | c :: cs =>
      if c = '/' then "" :: splitSlashChars cs
      else
        match splitSlashChars cs with
        | [] => [String.mk [c]]
        | s :: rest => String.mk (c :: s.data) :: rest

/-- JavaScript `path.split("/")`. -/
def splitSlash (s : String) : List String := splitSlashChars s.data

/-- JavaScript `path.includes("/")`. -/
def containsSlash (s : String) : Bool := s.data.contains '/'

/-- JavaScript property assignment `acc[k] = v` on an object literal:
overwrite in place when the key is already present, otherwise append. -/
def objAssign : Fields → String → JValue → Fields
  | [], k, v => [(k, v)]
  | (k', v') :: rest, k, v =>
      if k' = k then (k, v) :: rest else (k', v') :: objAssign rest k v

/-- JavaScript object spread `{...a, ...b}`: assign every binding of `b`
into a copy of `a`, in order. -/
def jsMerge (a b : Fields) : Fields :=
  b.foldl (fun acc kv => objAssign acc kv.1 kv.2) a

/-- First-match key lookup in a JavaScript object. -/
def jsLookup : Fields → String → Option JValue
  | [], _ => none
  | (k', v) :: rest, k => if k' = k then some v else jsLookup rest k

/-- An opaque `DocumentReference`: the `/`-separated segments of its path. -/
structure DocRef where
  segments : List String
deriving DecidableEq

/-- An opaque `CollectionReference`. -/
structure CollRef where
  segments : List String
deriving DecidableEq

/-- The driver's `db.collection(path)`. -/
def collection (path : String) : CollRef := ⟨splitSlash path⟩

/-- The driver's `collectionRef.doc(docId)`. -/
def CollRef.doc (c : CollRef) (docId : String) : DocRef := ⟨c.segments ++ [docId]⟩

/-- The driver's `db.doc(path)`. -/
def dbDoc (path : String) : DocRef := ⟨splitSlash path⟩

/-- The driver's `docRef.id` / `snapshot.id`: the terminal path segment. -/
def DocRef.id (r : DocRef) : String := r.segments.getLast?.getD ""

/-- JavaScript truthiness of an optional string argument: `undefined`/`null`
and the empty string are falsy. -/
def strTruthy : Option String → Bool
  | none => false
  | some s => !(s == "")

/-- JavaScript truthiness of an optional number argument: `undefined` and
`0` are falsy. -/
def numTruthy : Option Int → Bool
  | none => false
  | some n => !(n == 0)

/-- JavaScript truthiness of a `JValue`: `undefined`, `null`, `""`, `0` and
`false` are falsy; arrays, dates and objects are always truthy. -/
def jsTruthy : JValue → Bool
  | JValue.undef => false
  | JValue.null => false
  | JValue.prim s => !(s == "")
  | JValue.num n => !(n == 0)
  | JValue.bool b => b
  | JValue.arr _ => true
  | JValue.date _ => true
  | JValue.obj _ => true

/-- The modelled Firestore database: an association from full document paths
(segment lists) to stored field maps. -/
structure Firestore where
  docs : List (List String × Fields)

/-- Driver-level fetch of a document's stored fields; `none` when the
document does not exist. -/
def Firestore.getDoc (db : Firestore) (segs : List String) : Option Fields :=
  (db.docs.find? (fun e => e.1 == segs)).map (fun e => e.2)

/-- Replace (or create) the stored fields of one document. -/
def Firestore.setDocFields (db : Firestore) (segs : List String) (fields : Fields) :
    Firestore :=
  ⟨(segs, fields) :: db.docs.filter (fun e => !(e.1 == segs))⟩

/-- Modelled driver `docRef.set(payload, {merge})` (the external
firebase-admin driver of spec §6): with `merge` the payload's top-level
fields are merged into an existing document, otherwise the document is
replaced or created. -/
def Firestore.driverSet (db : Firestore) (segs : List String) (payload : Fields)
    (merge : Bool) : Firestore :=
  if merge then
    match db.getDoc segs with
    | some fields => db.setDocFields segs (jsMerge fields payload)
    | none => db.setDocFields segs payload
  else db.setDocFields segs payload

/-- Modelled driver `docRef.delete()`: idempotent removal. -/
def Firestore.driverDelete (db : Firestore) (segs : List String) : Firestore :=
  ⟨db.docs.filter (fun e => !(e.1 == segs))⟩

/-- One call handed to the underlying driver by a `FirestoreUtil` method. -/
inductive DriverCall where
  | get (segs : List String)
  | set (segs : List String) (payload : Fields) (merge : Bool)
  | update (segs : List String) (payload : Fields)
  | delete (segs : List String)

/-- The payloads of the write calls (`set`/`update`) in a driver-call log. -/
def writePayloads : List DriverCall → List Fields
  | [] => []
  | DriverCall.set _ payload _ :: rest => payload :: writePayloads rest
  | DriverCall.update _ payload :: rest => payload :: writePayloads rest
  | _ :: rest => writePayloads rest

/-- Did an `Except` computation fail? -/
def isErr {α : Type _} : Except String α → Bool
  | Except.error _ => true
  | Except.ok _ => false

/-- Model of `FirestoreUtil.setCompoundedDocument` (lines 67-117).  `gen`
stands for the identifier the driver mints in `collection(path).doc()`.
Returns the new database state, the driver calls performed, the returned
document reference and the returned identifier. -/
def setCompoundedDocument (db : Firestore) (gen : String) (path : String)
    (docId : Option String) (data : Fields) (merge : Bool) :
    Except String (Firestore × List DriverCall × DocRef × String) :=
  let cleanedData := removeUndefinedValues data
  let timestampedData := cleanedData
  if strTruthy docId then
    let s := docId.getD ""
    let fullPath := splitSlash path
    let docRef := if fullPath.length % 2 = 0 then (collection path).doc s
                  else dbDoc (path ++ "/" ++ s)
    Except.ok (db.driverSet docRef.segments timestampedData merge,
      [DriverCall.set docRef.segments timestampedData merge], docRef, s)
  else
    if containsSlash path then
      Except.error ("Failed to set document at path " ++ path ++
        ": Auto-generated document IDs are only supported for top-level collections")
    else
      let docRef := (collection path).doc gen
      Except.ok (db.driverSet docRef.segments timestampedData false,
        [DriverCall.set docRef.segments timestampedData false], docRef, gen)

/-- Document-address resolution performed by `FirestoreUtil.getDocument`
(lines 130-148). -/
def getDocument_docRef (path : String) (docId : Option String) :
    Except String DocRef :=
  if strTruthy docId then
    let s := docId.getD ""
    let segments := splitSlash path
    if segments.length % 2 = 0 then Except.ok ((collection path).doc s)
    else Except.ok (dbDoc (path ++ "/" ++ s))
  else
    if (splitSlash path).length % 2 ≠ 1 then
      Except.error "Invalid document path - must contain odd number of segments when docId is omitted"
    else Except.ok (dbDoc path)

/-- Model of `FirestoreUtil.getDocument` (lines 125-161): resolve, fetch,
and materialize `{id: docSnapshot.id, ...docSnapshot.data()}`, or `null`
when the document does not exist. -/
def getDocument (db : Firestore) (path : String) (docId : Option String) :
    Except String (List DriverCall × Option Fields) :=
  match getDocument_docRef path docId with
  | Except.error e => Except.error ("Failed to get document: " ++ e)
  | Except.ok docRef =>
    match db.getDoc docRef.segments with
    | none => Except.ok ([DriverCall.get docRef.segments], none)
    | some fields =>
        Except.ok ([DriverCall.get docRef.segments],
          some (jsMerge [("id", JValue.prim docRef.id)] fields))

/-- Model of `FirestoreUtil.upsertDocument` (lines 172-190): read, then
`update` when the document exists (the driver merges the payload into the
existing fields) and `set` when it does not. -/
def upsertDocument (db : Firestore) (docRef : DocRef) (data : Fields) :
    Except String (Firestore × List DriverCall × Unit) :=
  match db.getDoc docRef.segments with
  | some fields =>
      Except.ok (db.setDocFields docRef.segments (jsMerge fields data),
        [DriverCall.get docRef.segments, DriverCall.update docRef.segments data], ())
  | none =>
      Except.ok (db.driverSet docRef.segments data false,
        [DriverCall.get docRef.segments, DriverCall.set docRef.segments data false], ())

/-- Model of `FirestoreUtil.upsertDocumentWithDifferentData` (lines
200-219): read; on exists `update` with `updateData`; otherwise `set` with
`createData` when supplied, else do no operation and return normally. -/
def upsertDocumentWithDifferentData (db : Firestore) (docRef : DocRef)
    (updateData : Fields) (createData : Option Fields) :
    Except String (Firestore × List DriverCall × Unit) :=
  match db.getDoc docRef.segments with
  | some fields =>
      Except.ok (db.setDocFields docRef.segments (jsMerge fields updateData),
        [DriverCall.get docRef.segments,
         DriverCall.update docRef.segments updateData], ())
  | none =>
      match createData with
      | some cd =>
          Except.ok (db.driverSet docRef.segments cd false,
            [DriverCall.get docRef.segments,
             DriverCall.set docRef.segments cd false], ())
      | none => Except.ok (db, [DriverCall.get docRef.segments], ())

/-- Document-address resolution performed by `FirestoreUtil.editDocument`
(lines 281-295). -/
def editDocument_docRef (path : String) (docId : Option String) :
    Except String DocRef :=
  if strTruthy docId then
    let s := docId.getD ""
    let segments := splitSlash path
    if segments.length % 2 = 0 then Except.ok ((collection path).doc s)
    else Except.ok (dbDoc (path ++ "/" ++ s))
  else
    if (splitSlash path).length % 2 ≠ 1 then
      Except.error "Invalid document path - must contain odd number of segments when docId is omitted"
    else Except.ok (dbDoc path)

/-- Model of `FirestoreUtil.editDocument` (lines 275-309): resolve, build
`{...data, lut: Date.now()}` (no sanitization occurs here) and hand it to
the driver's `update`, which merges into an existing document and rejects a
missing one.  `now` stands for `Date.now()`, epoch milliseconds. -/
def editDocument (db : Firestore) (now : Int) (path : String)
    (docId : Option String) (data : Fields) :
    Except String (Firestore × List DriverCall × DocRef) :=
  match editDocument_docRef path docId with
  | Except.error e => Except.error ("Failed to update document: " ++ e)
  | Except.ok docRef =>
    let updateData := objAssign data "lut" (JValue.num now)
    match db.getDoc docRef.segments with
    | some fields =>
        Except.ok (db.setDocFields docRef.segments (jsMerge fields updateData),
          [DriverCall.update docRef.segments updateData], docRef)
    | none => Except.error "Failed to update document: NOT_FOUND"

/-- Document-address resolution performed by `FirestoreUtil.deleteDocument`
(lines 322-336). -/
def deleteDocument_docRef (path : String) (docId : Option String) :
    Except String DocRef :=
  if strTruthy docId then
    let s := docId.getD ""
    let segments := splitSlash path
    if segments.length % 2 = 0 then Except.ok ((collection path).doc s)
    else Except.ok (dbDoc (path ++ "/" ++ s))
  else
    if (splitSlash path).length % 2 ≠ 1 then
      Except.error "Invalid document path - must contain odd number of segments when docId is omitted"
    else Except.ok (dbDoc path)

/-- Model of `FirestoreUtil.deleteDocument` (lines 317-343). -/
def deleteDocument (db : Firestore) (path : String) (docId : Option String) :
    Except String (Firestore × List DriverCall) :=
  match deleteDocument_docRef path docId with
  | Except.error e => Except.error ("Failed to delete document: " ++ e)
  | Except.ok docRef =>
      Except.ok (db.driverDelete docRef.segments,
        [DriverCall.delete docRef.segments])

/-- Model of `FirestoreUtil.createDocumentRef` (lines 351-377). -/
def createDocumentRef (gen : String) (path : String) (docId : Option String) :
    Except String DocRef :=
  if strTruthy docId then
    let s := docId.getD ""
    let segments := splitSlash path
    if segments.length % 2 = 0 then Except.ok ((collection path).doc s)
    else Except.ok (dbDoc (path ++ "/" ++ s))
  else
    if containsSlash path then
      Except.error "Failed to create document reference: Auto-generated document IDs are only supported for top-level collections"
    else Except.ok ((collection path).doc gen)

/-- A `where` clause entry of `QueryOptions` (lines 7-11). -/
structure QueryCondition where
  field : String
  operator : String
  value : JValue

/-- The `QueryOptions` record (lines 13-23).  The `any`-typed cursors are
`JValue`s, `undef` standing for an omitted option. -/
structure QueryOptions where
  whereConds : Option (List QueryCondition) := none
  orderBy : Option (String × Option String) := none
  limit : Option Int := none
  startAfter : JValue := JValue.undef
  startAt : JValue := JValue.undef
  endAt : JValue := JValue.undef

/-- The driver query object accumulated by `queryDocuments`: base
collection, `where` filters in application order, at most one ordering, the
applied cursors and the applied limit. -/
structure DriverQuery where
  base : List String
  filters : List QueryCondition
  ordering : Option (String × Option String)
  startAfterCursor : Option JValue
  startAtCursor : Option JValue
  endAtCursor : Option JValue
  limitCount : Option Int

/-- The driver query over a bare collection, no options applied yet. -/
def DriverQuery.base0 (base : List String) : DriverQuery :=
  ⟨base, [], none, none, none, none, none⟩

/-- The driver's `query.where(field, operator, value)`. -/
def DriverQuery.addWhere (q : DriverQuery) (c : QueryCondition) : DriverQuery :=
  { q with filters := q.filters ++ [c] }

/-- The query-composition phase of `FirestoreUtil.queryDocuments` (lines
393-435): choose the base collection by path parity, then apply `where`,
`orderBy`, the cursors and `limit`, each only when the supplied option is
truthy. -/
def buildQuery (path : String) (options : QueryOptions) : DriverQuery :=
  let segments := splitSlash path
  let query := if segments.length % 2 = 1 then DriverQuery.base0 segments
               else DriverQuery.base0 segments.dropLast
  let query := match options.whereConds with
    | some conds => conds.foldl DriverQuery.addWhere query
    | none => query
  let query := match options.orderBy with
    | some ob => { query with ordering := some ob }
    | none => query
  let query := if jsTruthy options.startAfter then
                 { query with startAfterCursor := some options.startAfter }
               else query
  let query := if jsTruthy options.startAt then
                 { query with startAtCursor := some options.startAt }
               else query
  let query := if jsTruthy options.endAt then
                 { query with endAtCursor := some options.endAt }
               else query
  let query := if numTruthy options.limit then
                 { query with limitCount := options.limit }
               else query
  query

/-- A raw document snapshot returned by the driver's `query.get()`. -/
structure Snapshot where
  segments : List String
  fields : Fields

/-- The driver's `doc.id` on a raw query result. -/
def Snapshot.id (d : Snapshot) : String := d.segments.getLast?.getD ""

/-- The record returned by `queryDocuments`. -/
structure QueryResult where
  data : List Fields
  lastVisible : Option Snapshot := none
  firstVisible : Option Snapshot := none

/-- Model of `FirestoreUtil.queryDocuments` (lines 385-457).  `exec` is the
external driver's execution of a composed query (`query.get()`), supplied as
a parameter because its semantics live outside this repository.  The
function returns `{data: []}` on an empty result set, otherwise the
materialized records plus first/last raw results as cursors. -/
def queryDocuments (exec : DriverQuery → List Snapshot) (path : String)
    (options : QueryOptions) : QueryResult :=
  let snapshotDocs := exec (buildQuery path options)
  if snapshotDocs.isEmpty then { data := [] }
  else
    { data := snapshotDocs.map (fun d => jsMerge [("id", JValue.prim d.id)] d.fields),
      lastVisible := snapshotDocs.getLast?,
      firstVisible := snapshotDocs.head? }

/-- Resolution formula stated by the specification (§8, first testable
property), written from the spec's words for comparison with the code's
resolution logic. -/
def resolveSpec (p suppliedId : String) : DocRef :=
  if (splitSlash p).length % 2 = 0 then (collection p).doc suppliedId
  else dbDoc (p ++ "/" ++ suppliedId)

/-- The sanitizer's action on a single value: recurse into a plain object,
pass every other value through unchanged. -/
def cleanValue : JValue → JValue
  | JValue.obj fs => JValue.obj (removeUndefinedValues fs)
  | v => v

/-- Is a value one of the leaves the sanitizer must pass through unaltered
(an array or a date-like value)? -/
def passThrough : JValue → Bool
  | JValue.arr _ => true
  | JValue.date _ => true
  | _ => false

/-- Lookup of a value at a key chain reaching through plain nested objects:
`lookupPath fs k p` follows key `k` and then the keys of `p` in order. -/
def lookupPath : Fields → String → List String → Option JValue
  | fs, k, [] => jsLookup fs k
  | fs, k, k' :: ks =>
      match jsLookup fs k with
      | some (JValue.obj g) => lookupPath g k' ks
      | _ => none

/-! Helper lemmas about JavaScript object assignment, spread and lookup. -/

theorem objAssign_lookup_self (a : Fields) (k : String) (v : JValue) :
    jsLookup (objAssign a k v) k = some v := by
  induction a with
  | nil => simp [objAssign, jsLookup]
  | cons hd tl ih =>
      obtain ⟨k0, v0⟩ := hd
      by_cases h : k0 = k
      · simp [objAssign, h, jsLookup]
      · simp [objAssign, h, jsLookup, ih]

theorem objAssign_lookup_other (a : Fields) (k k' : String) (v : JValue)
    (h : k' ≠ k) : jsLookup (objAssign a k v) k' = jsLookup a k' := by
  induction a with
  | nil => simp [objAssign, jsLookup, Ne.symm h]
  | cons hd tl ih =>
      obtain ⟨k0, v0⟩ := hd
      by_cases h0 : k0 = k
      · subst h0
        simp [objAssign, jsLookup, Ne.symm h]
      · simp [objAssign, h0, jsLookup, ih]

theorem jsMerge_cons (a : Fields) (hd : String × JValue) (tl : Fields) :
    jsMerge a (hd :: tl) = jsMerge (objAssign a hd.1 hd.2) tl := rfl

theorem jsMerge_lookup_not_mem (b a : Fields) (k : String)
    (h : ∀ kv ∈ b, kv.1 ≠ k) : jsLookup (jsMerge a b) k = jsLookup a k := by
  induction b generalizing a with
  | nil => simp [jsMerge]
  | cons hd tl ih =>
      rw [jsMerge_cons,
        ih (objAssign a hd.1 hd.2) (fun kv hkv => h kv (List.mem_cons_of_mem _ hkv))]
      exact objAssign_lookup_other a hd.1 k hd.2 (Ne.symm (h hd (List.mem_cons_self _ _)))

theorem jsMerge_lookup_mem (b a : Fields) (k : String) (v : JValue)
    (hnd : (b.map Prod.fst).Nodup) (hv : jsLookup b k = some v) :
    jsLookup (jsMerge a b) k = some v := by
  induction b generalizing a with
  | nil => simp [jsLookup] at hv
  | cons hd tl ih =>
      obtain ⟨k0, v0⟩ := hd
      simp only [List.map_cons, List.nodup_cons] at hnd
      by_cases h0 : k0 = k
      · subst h0
        simp only [jsLookup, if_pos rfl] at hv
        obtain rfl : v0 = v := by injection hv
        rw [jsMerge_cons]
        rw [jsMerge_lookup_not_mem tl _ k0 ?_, objAssign_lookup_self]
        intro kv hkv
        exact fun he => hnd.1 (he ▸ List.mem_map_of_mem Prod.fst hkv)
      · simp only [jsLookup, if_neg h0] at hv
        rw [jsMerge_cons]
        exact ih (objAssign a k0 v0) hnd.2 hv

theorem objAssign_not_mem (a : Fields) (k : String) (v : JValue)
    (h : ∀ kv ∈ a, kv.1 ≠ k) : objAssign a k v = a ++ [(k, v)] := by
  induction a with
  | nil => simp [objAssign]
  | cons hd tl ih =>
      obtain ⟨k0, v0⟩ := hd
      have hk0 : k0 ≠ k := h (k0, v0) (List.mem_cons_self _ _)
      simp [objAssign, hk0, ih (fun kv hkv => h kv (List.mem_cons_of_mem _ hkv))]

theorem jsMerge_append (b a : Fields)
    (hnd : (b.map Prod.fst).Nodup)
    (hdisj : ∀ kv ∈ b, ∀ kv' ∈ a, kv.1 ≠ kv'.1) :
    jsMerge a b = a ++ b := by
  induction b generalizing a with
  | nil => simp [jsMerge]
  | cons hd tl ih =>
      obtain ⟨k0, v0⟩ := hd
      simp only [List.map_cons, List.nodup_cons] at hnd
      rw [jsMerge_cons]
      have hassign : objAssign a k0 v0 = a ++ [(k0, v0)] := by
        apply objAssign_not_mem
        intro kv hkv
        exact fun he => hdisj (k0, v0) (List.mem_cons_self _ _) kv hkv he.symm
      rw [show ((k0, v0) : String × JValue).1 = k0 from rfl,
        show ((k0, v0) : String × JValue).2 = v0 from rfl, hassign,
        ih (a ++ [(k0, v0)]) hnd.2 ?_]
      · simp
      · intro kv hkv kv' hkv'
        rcases List.mem_append.mp hkv' with hin | hin
        · exact hdisj kv (List.mem_cons_of_mem _ hkv) kv' hin
        · simp only [List.mem_singleton] at hin
          subst hin
          intro he
          have he' : kv.1 = k0 := he
          exact hnd.1 (he' ▸ List.mem_map_of_mem Prod.fst hkv)

theorem jsLookup_eq_none_iff (b : Fields) (k : String) :
    jsLookup b k = none ↔ ∀ kv ∈ b, kv.1 ≠ k := by
  induction b with
  | nil => simp [jsLookup]
  | cons hd tl ih =>
      obtain ⟨k0, v0⟩ := hd
      by_cases h0 : k0 = k
      · subst h0
        simp [jsLookup]
      · simp [jsLookup, h0, ih]

/-- Part one of the sanitizer property: the output binds no key to the
`undefined` marker at any depth reachable through plain nested objects. -/
theorem removeUndefinedValues_noUndef (fs : Fields) :
    fieldsHasUndef (removeUndefinedValues fs) = false := by
  induction fs using removeUndefinedValues.induct with
  | case1 => simp [removeUndefinedValues, fieldsHasUndef]
  | case2 key rest ih => simp [removeUndefinedValues, fieldsHasUndef, ih]
  | case3 key fs' rest ih1 ih2 => simp [removeUndefinedValues, fieldsHasUndef, ih1, ih2]
  | case4 key value rest h1 h2 ih =>
      cases value <;> simp_all [removeUndefinedValues, fieldsHasUndef]

theorem removeUndefinedValues_cons_other (key : String) (value : JValue) (rest : Fields)
    (h1 : value ≠ JValue.undef) (h2 : ∀ fs, value ≠ JValue.obj fs) :
    removeUndefinedValues ((key, value) :: rest) =
      (key, value) :: removeUndefinedValues rest := by
  cases value <;> simp_all [removeUndefinedValues]

theorem jsLookup_removeUndefinedValues (fs : Fields) (k : String) (v : JValue)
    (hv : jsLookup fs k = some v) (hne : v ≠ JValue.undef) :
    jsLookup (removeUndefinedValues fs) k = some (cleanValue v) := by
  induction fs using removeUndefinedValues.induct with
  | case1 => simp [jsLookup] at hv
  | case2 key rest ih =>
      by_cases hk : key = k
      · subst hk
        simp only [jsLookup, if_pos rfl] at hv
        obtain rfl : JValue.undef = v := by injection hv
        exact absurd rfl hne
      · simp only [jsLookup, if_neg hk] at hv
        simp only [removeUndefinedValues]
        exact ih hv
  | case3 key fs' rest ih1 ih2 =>
      by_cases hk : key = k
      · subst hk
        simp only [jsLookup, if_pos rfl] at hv
        obtain rfl : JValue.obj fs' = v := by injection hv
        simp [removeUndefinedValues, jsLookup, cleanValue]
      · simp only [jsLookup, if_neg hk] at hv
        simp only [removeUndefinedValues, jsLookup, if_neg hk]
        exact ih2 hv
  | case4 key value rest h1 h2 ih =>
      rw [removeUndefinedValues_cons_other key value rest
        (fun h => h1 h) (fun fs h => h2 fs h)]
      by_cases hk : key = k
      · subst hk
        simp only [jsLookup, if_pos rfl] at hv ⊢
        obtain rfl : value = v := by injection hv
        have hcv : cleanValue value = value := by
          cases value <;> simp_all [cleanValue]
        simp [hcv]
      · simp only [jsLookup, if_neg hk] at hv ⊢
        exact ih hv

theorem lookupPath_removeUndefinedValues (p : List String) (fs : Fields)
    (k : String) (v : JValue)
    (hv : lookupPath fs k p = some v) (hpass : passThrough v = true) :
    lookupPath (removeUndefinedValues fs) k p = some v := by
  induction p generalizing fs k with
  | nil =>
      simp only [lookupPath] at hv ⊢
      have hne : v ≠ JValue.undef := by
        intro h
        subst h
        simp [passThrough] at hpass
      rw [jsLookup_removeUndefinedValues fs k v hv hne]
      have hcv : cleanValue v = v := by
        cases v <;> simp_all [cleanValue, passThrough]
      rw [hcv]
  | cons k' ks ih =>
      simp only [lookupPath] at hv ⊢
      rcases hg : jsLookup fs k with _ | g
      · rw [hg] at hv
        simp at hv
      · rw [hg] at hv
        cases g with
        | obj inner =>
            rw [jsLookup_removeUndefinedValues fs k (JValue.obj inner) hg (by simp)]
            simp only [cleanValue]
            exact ih inner k' hv
        | undef => simp at hv
        | null => simp at hv
        | prim s => simp at hv
        | num n => simp at hv
        | bool b => simp at hv
        | arr xs => simp at hv
        | date t => simp at hv

/-- C1 counterexample: the claim quantifies over every supplied identifier,
but the code tests the identifier with JavaScript truthiness, so the
supplied empty identifier is treated as absent: at path "a/b" (even segment
count) the read resolution throws instead of producing
collection("a/b").document(""). -/
theorem c1_counterexample :
    getDocument_docRef "a/b" (some "") ≠ Except.ok (resolveSpec "a/b" "") := by
  intro h
  exact Except.noConfusion h

/-- C1 (amended): for every non-empty path and every supplied NON-EMPTY
identifier, the document-address resolution used by create/set
(`setCompoundedDocument`), read (`getDocument`) and reference-only
construction (`createDocumentRef`) produces `collection(p).document(id)`
when `p.split("/")` has an even number of segments and `document(p + "/" +
id)` when it has an odd number (a supplied empty identifier is instead
treated as absent). -/
theorem c1_resolution_amended (path suppliedId : String)
    (_hpath : path ≠ "") (hid : suppliedId ≠ "") :
    (∀ db gen data merge,
      setCompoundedDocument db gen path (some suppliedId) data merge =
        Except.ok (Firestore.driverSet db (resolveSpec path suppliedId).segments
            (removeUndefinedValues data) merge,
          [DriverCall.set (resolveSpec path suppliedId).segments
            (removeUndefinedValues data) merge],
          resolveSpec path suppliedId, suppliedId)) ∧
    getDocument_docRef path (some suppliedId) =
      Except.ok (resolveSpec path suppliedId) ∧
    (∀ gen, createDocumentRef gen path (some suppliedId) =
      Except.ok (resolveSpec path suppliedId)) := by
  have ht : strTruthy (some suppliedId) = true := by
    simp [strTruthy, hid]
  refine ⟨fun db gen data merge => ?_, ?_, fun gen => ?_⟩ <;>
    · simp only [setCompoundedDocument, getDocument_docRef, createDocumentRef,
        resolveSpec, ht, if_true]
      split <;> rfl

/-- C1 witness: the amended resolution rule instantiated at a concrete
odd-parity path and non-empty identifier. -/
theorem c1_resolution_amended_witness :
    getDocument_docRef "users/u1/posts" (some "p1") =
      Except.ok (resolveSpec "users/u1/posts" "p1") :=
  (c1_resolution_amended "users/u1/posts" "p1" (by decide) (by decide)).2.1

/-- C2: with no identifier supplied, the auto-generating operations
(`setCompoundedDocument` and `createDocumentRef`) fail exactly when the path
contains "/", and otherwise resolve to a freshly generated document directly
under `collection(path)`. -/
theorem c2_autoId (path : String) :
    (∀ db gen data merge,
      isErr (setCompoundedDocument db gen path none data merge) = containsSlash path) ∧
    (∀ gen, isErr (createDocumentRef gen path none) = containsSlash path) ∧
    (containsSlash path = false →
      (∀ db gen data merge,
        setCompoundedDocument db gen path none data merge =
          Except.ok (Firestore.driverSet db ((collection path).doc gen).segments
              (removeUndefinedValues data) false,
            [DriverCall.set ((collection path).doc gen).segments
              (removeUndefinedValues data) false],
            (collection path).doc gen, gen)) ∧
      (∀ gen, createDocumentRef gen path none =
        Except.ok ((collection path).doc gen))) := by
  have ht : strTruthy none = false := rfl
  refine ⟨fun db gen data merge => ?_, fun gen => ?_,
    fun hns => ⟨fun db gen data merge => ?_, fun gen => ?_⟩⟩
  · cases h : containsSlash path <;> simp [setCompoundedDocument, ht, h, isErr]
  · cases h : containsSlash path <;> simp [createDocumentRef, ht, h, isErr]
  · simp [setCompoundedDocument, ht, hns]
  · simp [createDocumentRef, ht, hns]

/-- C2 witness: the auto-id rule instantiated at the slash-free path
"users". -/
theorem c2_autoId_witness :
    isErr (createDocumentRef "g1" "users" none) = containsSlash "users" ∧
    createDocumentRef "g1" "users" none = Except.ok ((collection "users").doc "g1") :=
  ⟨(c2_autoId "users").2.1 "g1", ((c2_autoId "users").2.2 (by decide)).2 "g1"⟩

/-- C3: with no identifier supplied, the document-required resolution used
by read (`getDocument`), update (`editDocument`) and delete
(`deleteDocument`) fails exactly when the `/`-split path has an even number
of segments, and resolves to `document(path)` when the count is odd. -/
theorem c3_docRequired (path : String) :
    (isErr (getDocument_docRef path none) = true ↔
      (splitSlash path).length % 2 = 0) ∧
    (isErr (editDocument_docRef path none) = true ↔
      (splitSlash path).length % 2 = 0) ∧
    (isErr (deleteDocument_docRef path none) = true ↔
      (splitSlash path).length % 2 = 0) ∧
    ((splitSlash path).length % 2 = 1 →
      getDocument_docRef path none = Except.ok (dbDoc path) ∧
      editDocument_docRef path none = Except.ok (dbDoc path) ∧
      deleteDocument_docRef path none = Except.ok (dbDoc path)) := by
  have ht : strTruthy none = false := rfl
  have hpar : (splitSlash path).length % 2 = 0 ∨ (splitSlash path).length % 2 = 1 :=
    Nat.mod_two_eq_zero_or_one _
  rcases hpar with h | h <;>
    simp [getDocument_docRef, editDocument_docRef, deleteDocument_docRef, ht, h, isErr]

/-- C3 witness: the document-required rule instantiated at the odd-parity
path "users/u1/posts". -/
theorem c3_docRequired_witness :
    getDocument_docRef "users/u1/posts" none = Except.ok (dbDoc "users/u1/posts") :=
  ((c3_docRequired "users/u1/posts").2.2.2 (by decide)).1

/-- C4: the sanitizer's output binds no key to the absent marker at any
depth reachable through plain nested records, and every array or date-like
leaf reachable in the input through plain nested records appears unaltered
in the output. -/
theorem c4_sanitizer (fs : Fields) :
    fieldsHasUndef (removeUndefinedValues fs) = false ∧
    (∀ k p v, lookupPath fs k p = some v → passThrough v = true →
      lookupPath (removeUndefinedValues fs) k p = some v) :=
  ⟨removeUndefinedValues_noUndef fs,
   fun k p v hv hp => lookupPath_removeUndefinedValues p fs k v hv hp⟩

/-- C4 witness: a record with an absent key at the top and an array nested
inside a plain object that also holds an absent key. -/
theorem c4_sanitizer_witness :
    lookupPath [("a", JValue.undef),
        ("c", JValue.obj [("d", JValue.undef), ("e", JValue.arr [JValue.num 1])])]
      "c" ["e"] = some (JValue.arr [JValue.num 1]) ∧
    passThrough (JValue.arr [JValue.num 1]) = true ∧
    lookupPath (removeUndefinedValues [("a", JValue.undef),
        ("c", JValue.obj [("d", JValue.undef), ("e", JValue.arr [JValue.num 1])])])
      "c" ["e"] = some (JValue.arr [JValue.num 1]) :=
  ⟨rfl, rfl, (c4_sanitizer _).2 "c" ["e"] _ rfl rfl⟩

/-- C9: `upsertDocumentWithDifferentData` updates with `updateData` when the
document exists; otherwise it creates with `createData` when one is
supplied, and with no `createData` it performs no write at all and returns
normally. -/
theorem c9_upsert_distinct (db : Firestore) (docRef : DocRef)
    (updateData : Fields) (createData : Option Fields) :
    (∀ fields, db.getDoc docRef.segments = some fields →
      upsertDocumentWithDifferentData db docRef updateData createData =
        Except.ok (db.setDocFields docRef.segments (jsMerge fields updateData),
          [DriverCall.get docRef.segments,
           DriverCall.update docRef.segments updateData], ())) ∧
    (db.getDoc docRef.segments = none → ∀ cd, createData = some cd →
      upsertDocumentWithDifferentData db docRef updateData createData =
        Except.ok (db.driverSet docRef.segments cd false,
          [DriverCall.get docRef.segments,
           DriverCall.set docRef.segments cd false], ())) ∧
    (db.getDoc docRef.segments = none → createData = none →
      upsertDocumentWithDifferentData db docRef updateData createData =
        Except.ok (db, [DriverCall.get docRef.segments], ())) := by
  refine ⟨fun fields hf => ?_, fun hn cd hcd => ?_, fun hn hcd => ?_⟩
  · simp [upsertDocumentWithDifferentData, hf]
  · simp [upsertDocumentWithDifferentData, hn, hcd]
  · simp [upsertDocumentWithDifferentData, hn, hcd]

/-- C9 witness: the deliberate no-op case at a concrete empty database. -/
theorem c9_upsert_distinct_witness :
    upsertDocumentWithDifferentData ⟨[]⟩ ⟨["t", "d"]⟩ [("a", JValue.num 1)] none =
      Except.ok (⟨[]⟩, [DriverCall.get ["t", "d"]], ()) :=
  (c9_upsert_distinct ⟨[]⟩ ⟨["t", "d"]⟩ [("a", JValue.num 1)] none).2.2 rfl rfl

/-- C5 counterexample: `upsertDocument` (a write path) hands the driver an
update payload that still contains an absent-valued key, so not every write
operation routes its payload through the sanitizer. -/
theorem c5_counterexample :
    upsertDocument ⟨[(["t", "d"], [("a", JValue.num 1)])]⟩ ⟨["t", "d"]⟩
        [("y", JValue.undef)] =
      Except.ok (⟨[(["t", "d"], [("a", JValue.num 1), ("y", JValue.undef)])]⟩,
        [DriverCall.get ["t", "d"], DriverCall.update ["t", "d"] [("y", JValue.undef)]],
        ()) ∧
    fieldsHasUndef [("y", JValue.undef)] = true :=
  ⟨rfl, by simp [fieldsHasUndef]⟩

/-- C5 (amended): only the create/set operation routes its payload through
the sanitizer, so its driver writes never contain an absent-valued key; the
update operation and both upsert variants hand their payloads to the driver
unsanitized. -/
theorem c5_sanitizer_routing_amended :
    (∀ db gen path docId data merge res,
      setCompoundedDocument db gen path docId data merge = Except.ok res →
      ∀ p ∈ writePayloads res.2.1, fieldsHasUndef p = false) ∧
    (∀ db now path docId data res,
      editDocument db now path docId data = Except.ok res →
      writePayloads res.2.1 = [objAssign data "lut" (JValue.num now)]) ∧
    (∀ db docRef data res,
      upsertDocument db docRef data = Except.ok res →
      writePayloads res.2.1 = [data]) ∧
    (∀ db docRef u c res,
      upsertDocumentWithDifferentData db docRef u c = Except.ok res →
      writePayloads res.2.1 = [] ∨ writePayloads res.2.1 = [u] ∨
        (∃ cd, c = some cd ∧ writePayloads res.2.1 = [cd])) := by
  refine ⟨?_, ?_, ?_, ?_⟩
  · intro db gen path docId data merge res hres
    cases ht : strTruthy docId <;>
      simp only [setCompoundedDocument, ht, Bool.false_eq_true, if_true, if_false] at hres
    · cases hc : containsSlash path <;>
        simp only [hc, Bool.false_eq_true, if_true, if_false] at hres
      · obtain rfl : _ = res := by injection hres
        intro p hp
        simp only [writePayloads, List.mem_singleton] at hp
        subst hp
        exact removeUndefinedValues_noUndef data
      · exact absurd hres (by simp)
    · obtain rfl : _ = res := by injection hres
      intro p hp
      simp only [writePayloads, List.mem_singleton] at hp
      subst hp
      exact removeUndefinedValues_noUndef data
  · intro db now path docId data res hres
    unfold editDocument at hres
    cases hr : editDocument_docRef path docId <;> simp only [hr] at hres
    case error e => exact absurd hres (by simp)
    case ok docRef =>
      cases hd : db.getDoc docRef.segments <;> simp only [hd] at hres
      case none => exact absurd hres (by simp)
      case some fields =>
        obtain rfl : _ = res := by injection hres
        simp [writePayloads]
  · intro db docRef data res hres
    unfold upsertDocument at hres
    cases hd : db.getDoc docRef.segments <;> simp only [hd] at hres
    case none =>
      obtain rfl : _ = res := by injection hres
      simp [writePayloads]
    case some fields =>
      obtain rfl : _ = res := by injection hres
      simp [writePayloads]
  · intro db docRef u c res hres
    unfold upsertDocumentWithDifferentData at hres
    cases hd : db.getDoc docRef.segments <;> simp only [hd] at hres
    case none =>
      cases hc : c <;> simp only [hc] at hres
      case none =>
        obtain rfl : _ = res := by injection hres
        left
        simp [writePayloads]
      case some cd =>
        obtain rfl : _ = res := by injection hres
        right; right
        exact ⟨cd, rfl, by simp [writePayloads]⟩
    case some fields =>
      obtain rfl : _ = res := by injection hres
      right; left
      simp [writePayloads]

/-- C5 witness: a concrete create/set run whose single driver write is the
sanitized payload. -/
theorem c5_sanitizer_routing_amended_witness :
    fieldsHasUndef [("b", JValue.num 1)] = false := by
  have h := (c5_sanitizer_routing_amended).1 ⟨[]⟩ "g" "t" (some "d")
    [("a", JValue.undef), ("b", JValue.num 1)] false _ rfl
  have hmem : [("b", JValue.num 1)] ∈
      writePayloads [DriverCall.set ["t", "d"]
        (removeUndefinedValues [("a", JValue.undef), ("b", JValue.num 1)]) false] := by
    simp [writePayloads, removeUndefinedValues]
  exact h _ hmem

/-- C6 counterexample: the update operation does not sanitize its payload;
with partial data holding an absent-valued key, the payload handed to the
driver differs from the sanitized payload augmented with `lut`. -/
theorem c6_counterexample :
    editDocument ⟨[(["users", "u1"], [("a", JValue.num 1)])]⟩ 5 "users" (some "u1")
        [("x", JValue.undef)] =
      Except.ok (⟨[(["users", "u1"],
          [("a", JValue.num 1), ("x", JValue.undef), ("lut", JValue.num 5)])]⟩,
        [DriverCall.update ["users", "u1"]
          [("x", JValue.undef), ("lut", JValue.num 5)]],
        ⟨["users", "u1"]⟩) ∧
    [("x", JValue.undef), ("lut", JValue.num 5)] ≠
      objAssign (removeUndefinedValues [("x", JValue.undef)]) "lut" (JValue.num 5) :=
  ⟨rfl, by simp [removeUndefinedValues, objAssign]⟩

/-- C6 (amended): the update operation writes exactly the UNSANITIZED
partial payload augmented with a field `lut` holding the current epoch
milliseconds, as a partial update that leaves every field not named in that
payload unchanged. -/
theorem c6_update_amended (db : Firestore) (now : Int) (path : String)
    (docId : Option String) (data : Fields) (docRef : DocRef) (fields : Fields)
    (hres : editDocument_docRef path docId = Except.ok docRef)
    (hdoc : db.getDoc docRef.segments = some fields)
    (hnd : ((objAssign data "lut" (JValue.num now)).map Prod.fst).Nodup) :
    editDocument db now path docId data =
      Except.ok (db.setDocFields docRef.segments
          (jsMerge fields (objAssign data "lut" (JValue.num now))),
        [DriverCall.update docRef.segments (objAssign data "lut" (JValue.num now))],
        docRef) ∧
    jsLookup (jsMerge fields (objAssign data "lut" (JValue.num now))) "lut" =
      some (JValue.num now) ∧
    (∀ k, (∀ kv ∈ objAssign data "lut" (JValue.num now), kv.1 ≠ k) →
      jsLookup (jsMerge fields (objAssign data "lut" (JValue.num now))) k =
        jsLookup fields k) := by
  refine ⟨?_, ?_, fun k hk => ?_⟩
  · unfold editDocument
    rw [hres]
    simp [hdoc]
  · exact jsMerge_lookup_mem _ _ _ _ hnd (objAssign_lookup_self data "lut" _)
  · exact jsMerge_lookup_not_mem _ _ _ hk

/-- C6 witness: a concrete update run: `lut` is stamped into the payload
and the untouched field "name" keeps its stored value. -/
theorem c6_update_amended_witness :
    editDocument ⟨[(["users", "u1"], [("name", JValue.prim "A")])]⟩ 9 "users"
        (some "u1") [("age", JValue.num 5)] =
      Except.ok (⟨[(["users", "u1"],
          [("name", JValue.prim "A"), ("age", JValue.num 5), ("lut", JValue.num 9)])]⟩,
        [DriverCall.update ["users", "u1"] [("age", JValue.num 5), ("lut", JValue.num 9)]],
        ⟨["users", "u1"]⟩) ∧
    jsLookup (jsMerge [("name", JValue.prim "A")]
        (objAssign [("age", JValue.num 5)] "lut" (JValue.num 9))) "name" =
      jsLookup [("name", JValue.prim "A")] "name" := by
  have h := c6_update_amended ⟨[(["users", "u1"], [("name", JValue.prim "A")])]⟩ 9
    "users" (some "u1") [("age", JValue.num 5)] ⟨["users", "u1"]⟩
    [("name", JValue.prim "A")] rfl rfl (by simp [objAssign])
  refine ⟨h.1, h.2.2 "name" ?_⟩
  simp [objAssign]

/-- C7: for a successfully resolved document address, the read returns null
exactly when the document does not exist; otherwise it returns the stored
field map with an injected `id` field equal to the resolved reference's
terminal path segment (the data model guarantees `id` is never persisted
inside the stored payload, and stored keys are unique). -/
theorem c7_read (db : Firestore) (path : String) (docId : Option String)
    (docRef : DocRef)
    (hres : getDocument_docRef path docId = Except.ok docRef) :
    (getDocument db path docId =
        Except.ok ([DriverCall.get docRef.segments], none) ↔
      db.getDoc docRef.segments = none) ∧
    (∀ fields, db.getDoc docRef.segments = some fields →
      jsLookup fields "id" = none → (fields.map Prod.fst).Nodup →
      getDocument db path docId =
        Except.ok ([DriverCall.get docRef.segments],
          some (("id", JValue.prim docRef.id) :: fields))) := by
  constructor
  · constructor
    · intro h
      unfold getDocument at h
      rw [hres] at h
      cases hd : db.getDoc docRef.segments <;> simp only [hd] at h
      · rfl
      · exact absurd h (by simp)
    · intro h
      unfold getDocument
      rw [hres]
      simp [h]
  · intro fields hd hid hnd
    unfold getDocument
    rw [hres]
    simp only [hd]
    have hmg : jsMerge [("id", JValue.prim docRef.id)] fields =
        [("id", JValue.prim docRef.id)] ++ fields := by
      apply jsMerge_append fields _ hnd
      intro kv hkv kv' hkv'
      simp only [List.mem_singleton] at hkv'
      subst hkv'
      exact (jsLookup_eq_none_iff fields "id").mp hid kv hkv
    rw [hmg]
    rfl

/-- C7 witness: reading an existing document injects its identifier. -/
theorem c7_read_witness :
    getDocument ⟨[(["users", "u1"], [("name", JValue.prim "A")])]⟩ "users" (some "u1") =
      Except.ok ([DriverCall.get ["users", "u1"]],
        some [("id", JValue.prim "u1"), ("name", JValue.prim "A")]) :=
  (c7_read ⟨[(["users", "u1"], [("name", JValue.prim "A")])]⟩ "users" (some "u1")
      ⟨["users", "u1"]⟩ rfl).2 [("name", JValue.prim "A")] rfl rfl (by simp)

/-- C8: a query returns `{data := []}` with no cursors when the executed
query's result set is empty, and otherwise all materialized records with
injected `id`, with `firstVisible` the first raw result and `lastVisible`
the last raw result. -/
theorem c8_query_result (exec : DriverQuery → List Snapshot) (path : String)
    (options : QueryOptions) :
    (exec (buildQuery path options) = [] →
      queryDocuments exec path options =
        { data := [], lastVisible := none, firstVisible := none }) ∧
    (∀ d ds, exec (buildQuery path options) = d :: ds →
      queryDocuments exec path options =
        { data := (d :: ds).map (fun x => jsMerge [("id", JValue.prim x.id)] x.fields),
          lastVisible := (d :: ds).getLast?,
          firstVisible := some d }) := by
  constructor
  · intro h
    unfold queryDocuments
    rw [h]
    rfl
  · intro d ds h
    unfold queryDocuments
    rw [h]
    simp

/-- C8 witness: a singleton result set yields one materialized record and
both cursors point at that raw result. -/
theorem c8_query_result_witness :
    queryDocuments (fun _ => [⟨["c", "d1"], [("a", JValue.num 1)]⟩]) "c" {} =
      { data := [[("id", JValue.prim "d1"), ("a", JValue.num 1)]],
        lastVisible := some ⟨["c", "d1"], [("a", JValue.num 1)]⟩,
        firstVisible := some ⟨["c", "d1"], [("a", JValue.num 1)]⟩ } :=
  (c8_query_result (fun _ => [⟨["c", "d1"], [("a", JValue.num 1)]⟩]) "c" {}).2
    ⟨["c", "d1"], [("a", JValue.num 1)]⟩ [] rfl

theorem foldl_addWhere_limitCount (conds : List QueryCondition) (q : DriverQuery) :
    (conds.foldl DriverQuery.addWhere q).limitCount = q.limitCount := by
  induction conds generalizing q with
  | nil => rfl
  | cons c cs ih => simp [List.foldl, ih, DriverQuery.addWhere]

/-- C10: the limit and each pagination cursor are applied only when their
supplied value is truthy; limit 0 and falsy cursors behave exactly as if
the option were omitted, and limit 0 imposes no limit. -/
theorem c10_falsy_options (exec : DriverQuery → List Snapshot) (path : String)
    (options : QueryOptions) :
    (options.limit = some 0 →
      (buildQuery path options).limitCount = none ∧
      queryDocuments exec path options =
        queryDocuments exec path { options with limit := none }) ∧
    (jsTruthy options.startAfter = false →
      queryDocuments exec path options =
        queryDocuments exec path { options with startAfter := JValue.undef }) ∧
    (jsTruthy options.startAt = false →
      queryDocuments exec path options =
        queryDocuments exec path { options with startAt := JValue.undef }) ∧
    (jsTruthy options.endAt = false →
      queryDocuments exec path options =
        queryDocuments exec path { options with endAt := JValue.undef }) := by
  refine ⟨fun h0 => ⟨?_, ?_⟩, fun hsa => ?_, fun hst => ?_, fun hea => ?_⟩
  · obtain ⟨w, ob, lim, sa, st, ea⟩ := options
    simp only at h0
    subst h0
    cases w <;> cases ob <;>
      cases hsa : jsTruthy sa <;> cases hst : jsTruthy st <;> cases hea : jsTruthy ea <;>
      simp [buildQuery, foldl_addWhere_limitCount, numTruthy, hsa, hst, hea,
        DriverQuery.base0, apply_ite DriverQuery.limitCount]
  · unfold queryDocuments
    have hb : buildQuery path options = buildQuery path { options with limit := none } := by
      simp [buildQuery, h0, show numTruthy (some 0) = false from rfl,
        show numTruthy none = false from rfl]
    rw [hb]
  · unfold queryDocuments
    have hb : buildQuery path options =
        buildQuery path { options with startAfter := JValue.undef } := by
      simp [buildQuery, hsa, show jsTruthy JValue.undef = false from rfl]
    rw [hb]
  · unfold queryDocuments
    have hb : buildQuery path options =
        buildQuery path { options with startAt := JValue.undef } := by
      simp [buildQuery, hst, show jsTruthy JValue.undef = false from rfl]
    rw [hb]
  · unfold queryDocuments
    have hb : buildQuery path options =
        buildQuery path { options with endAt := JValue.undef } := by
      simp [buildQuery, hea, show jsTruthy JValue.undef = false from rfl]
    rw [hb]

/-- C10 witness: limit 0 leaves the composed query unlimited and the query
behaves as if no limit were supplied, against an executor that returns a row
only for an unlimited query. -/
theorem c10_falsy_options_witness :
    (buildQuery "c" { limit := some 0 }).limitCount = none ∧
    queryDocuments (fun q => match q.limitCount with
        | none => [⟨["c", "x"], []⟩]
        | some _ => []) "c" { limit := some 0 } =
      queryDocuments (fun q => match q.limitCount with
        | none => [⟨["c", "x"], []⟩]
        | some _ => []) "c" ({} : QueryOptions) :=
  (c10_falsy_options (fun q => match q.limitCount with
        | none => [⟨["c", "x"], []⟩]
        | some _ => []) "c" { limit := some 0 }).1 rfl
